import Mathlib

/-!
Verification development for the schematyper schema-to-Go-type resolution
engine (`generator.go`, `schematype.go`).

The engine is embedded shallowly:

* `metaSchema` mirrors the parsed schema node consumed by `processType`
  (fields `Title`, `Description`, `Type`, `Required`, `Properties`, `Items`,
  `Format`, `Definitions`, `AdditionalProperties`, `Ref`).  The concrete Go
  declaration of `metaSchema` is produced by `go:generate` from
  `metaschema.json` and is not part of the shipped sources; its field set is
  exactly what `processType` reads, and matches the input contract of the
  spec (§6).
* Go's `interface{}`-typed `type` field is modelled by `TypeSpec`
  (absent / single string / array of strings; non-string array members make
  the Go code panic on a type assertion and are outside the modelled input
  space).  `items` and `additionalProperties` are modelled by `itemsSpec`
  and `addlSpec` with the same three-way shape the Go type switches
  distinguish.
* Go maps iterated with `range` are modelled as association lists; the list
  order stands for the (unspecified) Go map iteration order.  Two runs of
  the real program on the same document correspond to two association lists
  that are permutations of each other.
* The process-global mutable state (`types`, `deferredTypes`,
  `typesByName`, `needTimeImport`) becomes an explicit `genState` record
  threaded through all functions.
* `log.Fatalln` (which skips deferred functions) becomes an `Except.error`
  that bypasses the deferred registration; the debugging `panic` in the
  `"object"` branch (which would run deferred functions before crashing the
  process) is likewise an `Except.error`, as the post-crash state is not
  observable.
* The unbounded `for` loops (`processDeferred`, `dedupeTypes`) and the
  recursion of `processType` take an explicit fuel argument so that every
  definition is a computable structural recursion that the kernel can
  evaluate.
* ASCII strings: Go's Unicode-aware `unicode.IsLetter` / `strings.Title`
  etc. are modelled on the ASCII fragment, which is where all claims live.
* `inflector.Singularize` is an external library (github.com/gedex/inflector),
  not repository code; `inflectorSingularize` is a simplified stand-in whose
  exact output no claim depends on.
-/

/-- Fatal outcomes of the engine.  Each constructor corresponds to one abort
site in `generator.go`. -/
inductive genErr where
  /-- fuel exhaustion of the embedding; never occurs for sufficient fuel -/
  | outOfFuel : genErr
  /-- `log.Fatalln("Can't generate type without name.")` -/
  | noTypeName : genErr
  /-- `log.Fatalln("Can't generate field without name.")` -/
  | noFieldName : genErr
  /-- the debugging `panic` fired for a type named "Properties" -/
  | panicProperties : genErr
  /-- `log.Fatalln("Can't resolve:", startDeferredPaths)` -/
  | cantResolve (paths : List String) : genErr
  /-- `log.Fatalln("Can't disabiguate:", dupes)` -/
  | cantDisambiguate (paths : List String) : genErr
deriving Repr, DecidableEq

/-- The JSON `type` keyword: absent, a single string, or an array of
strings. -/
inductive TypeSpec where
  | noSpec : TypeSpec
  | str (s : String) : TypeSpec
  | arr (ts : List String) : TypeSpec
deriving Repr, DecidableEq

mutual
/-- A parsed schema node, with exactly the fields `processType` consumes.
Absent JSON members are the Go zero values (`""`, empty list, the `noItems`
/ `noAddl` cases). -/
inductive metaSchema where
  | mk (Title Description : String) (TypeOf : TypeSpec) (Required : List String)
       (Properties : List (String × metaSchema)) (Items : itemsSpec)
       (Format : String) (Definitions : List (String × metaSchema))
       (AdditionalProperties : addlSpec) (Ref : String) : metaSchema

/-- The JSON `items` keyword: absent, a single schema, or an array of
schemas (the three cases of the Go type switch). -/
inductive itemsSpec where
  | noItems : itemsSpec
  | single (s : metaSchema) : itemsSpec
  | tuple (ss : List metaSchema) : itemsSpec

/-- The JSON `additionalProperties` keyword: absent, a boolean, or a
schema (the three cases of `parseAdditionalProperties`). -/
inductive addlSpec where
  | noAddl : addlSpec
  | bool (b : Bool) : addlSpec
  | schema (s : metaSchema) : addlSpec
end

namespace metaSchema

def Title : metaSchema → String
  | .mk t _ _ _ _ _ _ _ _ _ => t

def Description : metaSchema → String
  | .mk _ d _ _ _ _ _ _ _ _ => d

def TypeOf : metaSchema → TypeSpec
  | .mk _ _ ty _ _ _ _ _ _ _ => ty

def Required : metaSchema → List String
  | .mk _ _ _ r _ _ _ _ _ _ => r

def Properties : metaSchema → List (String × metaSchema)
  | .mk _ _ _ _ p _ _ _ _ _ => p

def Items : metaSchema → itemsSpec
  | .mk _ _ _ _ _ i _ _ _ _ => i

def Format : metaSchema → String
  | .mk _ _ _ _ _ _ f _ _ _ => f

def Definitions : metaSchema → List (String × metaSchema)
  | .mk _ _ _ _ _ _ _ d _ _ => d

def AdditionalProperties : metaSchema → addlSpec
  | .mk _ _ _ _ _ _ _ _ a _ => a

def Ref : metaSchema → String
  | .mk _ _ _ _ _ _ _ _ _ r => r

end metaSchema

/-- A schema node with every member absent (all Go zero values); concrete
schemas below are built from it by overriding fields positionally. -/
def emptySchema : metaSchema :=
  .mk "" "" .noSpec [] [] .noItems "" [] .noAddl ""

/- ## Identifier generator (§4.1; `generator.go` lines 226-314) -/

/-- `commonInitialisms` from `generator.go` (copied there from golint). -/
def commonInitialisms : List String :=
  ["API", "ASCII", "CPU", "CSS", "DNS", "EOF", "GUID", "HTML", "HTTP",
   "HTTPS", "ID", "IP", "JSON", "LHS", "QPS", "RAM", "RHS", "RPC", "SLA",
   "SMTP", "SQL", "SSH", "TCP", "TLS", "TTL", "UDP", "UI", "UID", "UUID",
   "URI", "URL", "UTF8", "VM", "XML", "XSRF", "XSS"]

/-- `dashedToWords`: replace every `-` or `_` by a space. -/
def dashedToWords (s : String) : String :=
  ⟨s.data.map fun c => if c = '-' ∨ c = '_' then ' ' else c⟩

/-- Character-pair scan equivalent of the regex
`([\p{Ll}\p{N}])(\p{Lu})` → `$1 $2` on ASCII: a space is inserted between a
lower-case letter or digit and an upper-case letter. -/
def camelCaseToWordsAux : List Char → List Char
  | [] => []
  | [c] => [c]
  | c1 :: c2 :: rest =>
    if (c1.isLower ∨ c1.isDigit) ∧ c2.isUpper then
      c1 :: ' ' :: camelCaseToWordsAux (c2 :: rest)
    else
      c1 :: camelCaseToWordsAux (c2 :: rest)

/-- `camelCaseToWords`. -/
def camelCaseToWords (s : String) : String :=
  ⟨camelCaseToWordsAux s.data⟩

/-- Go `strings.Title` word-separator test on ASCII: everything except
letters, digits and underscore separates words. -/
def goIsSeparator (c : Char) : Bool :=
  ¬(c.isAlpha ∨ c.isDigit ∨ c = '_')

/-- Go `strings.Title` scan: upper-case every letter that follows a
separator (the scan starts as if after a separator). -/
def goTitleAux : Bool → List Char → List Char
  | _, [] => []
  | prevSep, c :: rest =>
    (if prevSep then c.toUpper else c) :: goTitleAux (goIsSeparator c) rest

/-- Go `strings.Title` on ASCII. -/
def goTitle (s : String) : String :=
  ⟨goTitleAux true s.data⟩

/-- Go `strings.ToUpper` on ASCII. -/
def goToUpper (s : String) : String := ⟨s.data.map Char.toUpper⟩

/-- Go `strings.ToLower` on ASCII. -/
def goToLower (s : String) : String := ⟨s.data.map Char.toLower⟩

/-- `getExportedIdentifierPart`. -/
def getExportedIdentifierPart (part : String) : String :=
  let upperedPart := goToUpper part
  if commonInitialisms.contains upperedPart then upperedPart
  else goTitle (goToLower part)

/-- Lower-case the first character of a string (`strings.ToLower` applied
to `nameParts[0]`, which is a single title-cased word, only changes its
first character on ASCII; we keep the full `ToLower` of the word to mirror
the source). -/
def lowerFirstWord (s : String) : String := goToLower s

/-- The final identifier filter: keep letters, underscores, and digits not
in position 0 (`pos` ranges over the raw name, as in the Go `range` loop).
-/
def filterIdentChars (s : String) : String :=
  ⟨((s.data.enum.filter fun p =>
      p.2.isAlpha ∨ p.2 = '_' ∨ (p.2.isDigit ∧ p.1 > 0)).map Prod.snd)⟩

/-- Structural-recursion equivalent of `strings.Split s " "`: cut the
character list at every space (like Go, it yields empty words for leading,
trailing, or doubled spaces, and a single empty word for the empty string).
-/
def splitOnSpaceAux (acc : List Char) : List Char → List (List Char)
  | [] => [acc.reverse]
  | c :: rest =>
    if c = ' ' then acc.reverse :: splitOnSpaceAux [] rest
    else splitOnSpaceAux (c :: acc) rest

/-- `strings.Split _ " "` as a `String` operation. -/
def splitOnSpace (s : String) : List String :=
  (splitOnSpaceAux [] s.data).map String.mk

/-- `strings.Join _ ""`. -/
def joinAll : List String → String
  | [] => ""
  | s :: rest => s ++ joinAll rest

/-- `generateIdentifier`. -/
def generateIdentifier (origName : String) (exported : Bool) : String :=
  let spacedName := camelCaseToWords (dashedToWords origName)
  let titledName := goTitle spacedName
  let nameParts := splitOnSpace titledName
  let nameParts := nameParts.map getExportedIdentifierPart
  let nameParts :=
    if exported then nameParts
    else match nameParts with
      | [] => []
      | p0 :: rest => lowerFirstWord p0 :: rest
  let rawName := joinAll nameParts
  filterIdentChars rawName

/-- The naming/export configuration handed to the engine (`--package`,
`--prefix`, `--root-type`; `rootTypeName` is taken after `main` has filled
in the filename-derived default, which is outside the core). -/
structure Config where
  packageName : String
  typeNamesPref : String
  rootTypeName : String
deriving Repr, DecidableEq

/-- `generateTypeName` (the Go global flags `*packageName` and
`*typeNamesPrefix` become `Config` fields; the latter is renamed
`typeNamesPref` here). -/
def generateTypeName (cfg : Config) (origName : String) : String :=
  if cfg.packageName ≠ "main" ∨ cfg.typeNamesPref ≠ "" then
    cfg.typeNamesPref ++ generateIdentifier origName true
  else
    generateIdentifier origName false

/-- `generateFieldName`. -/
def generateFieldName (origName : String) : String :=
  generateIdentifier origName true

example : generateIdentifier "properties" true = "Properties" := by decide
example : generateIdentifier "foo-bar" false = "fooBar" := by decide
example : generateFieldName "a-b" = "AB" := by decide
example : generateFieldName "aB" = "AB" := by decide
example : generateIdentifier "user_id" true = "UserID" := by decide

/- ## Resolved descriptors and engine state (`generator.go` lines 35-68,
120-146, 148-223, 316-390) -/

/-- `structField` (the Go field `TypePrefix` is called `TypePref` here). -/
structure structField where
  Name : String := ""
  TypeRef : String := ""
  TypePref : String := ""
  Nullable : Bool := false
  PropertyName : String := ""
  Required : Bool := false
deriving Repr, DecidableEq

/-- `goType` (the Go field `TypePrefix` is called `TypePref` here). -/
structure goType where
  Name : String := ""
  TypeRef : String := ""
  TypePref : String := ""
  Nullable : Bool := false
  Fields : List structField := []
  Comment : String := ""
  parentPath : String := ""
  origTypeName : String := ""
deriving Repr, DecidableEq

/-- `deferredType`. -/
structure deferredType where
  schema : metaSchema
  name : String
  desc : String
  parentPath : String

/-- Association-list lookup; models indexing a Go `map[string]α`. -/
def lookupA {α : Type} : List (String × α) → String → Option α
  | [], _ => none
  | (k, v) :: rest, key => if k = key then some v else lookupA rest key

/-- Association-list update; models `m[key] = v` (replace in place, append
if absent). -/
def insertA {α : Type} : List (String × α) → String → α → List (String × α)
  | [], key, v => [(key, v)]
  | (k, w) :: rest, key, v =>
    if k = key then (k, v) :: rest else (k, w) :: insertA rest key v

/-- Association-list removal; models `delete(m, key)`. -/
def removeA {α : Type} : List (String × α) → String → List (String × α)
  | [], _ => []
  | (k, v) :: rest, key =>
    if k = key then removeA rest key else (k, v) :: removeA rest key

/-- The keys of an association list. -/
def keysA {α : Type} : List (String × α) → List String
  | [] => []
  | (k, _) :: rest => k :: keysA rest

/-- `stringSet` membership (`exists`). -/
def setMem (s : List String) (v : String) : Bool := s.contains v

/-- `stringSet.add` (idempotent, as for a Go `map[string]struct{}`). -/
def setAdd (s : List String) (v : String) : List String :=
  if setMem s v then s else s ++ [v]

/-- `stringSet.remove`. -/
def setRemove (s : List String) (v : String) : List String :=
  s.filter fun x => x ≠ v

/-- `stringSet.equals`: mutual containment. -/
def setEq (s t : List String) : Bool :=
  (s.all fun v => setMem t v) ∧ (t.all fun v => setMem s v)

/-- The process-global mutable resolution state of `generator.go`:
`types`, `deferredTypes`, `typesByName` and `needTimeImport`, threaded
explicitly.  `typesByName` maps a generated name to the `stringSet` of
paths claiming it. -/
structure genState where
  types : List (String × goType) := []
  deferredTypes : List (String × deferredType) := []
  typesByName : List (String × List String) := []
  needTimeImport : Bool := false

/-- The empty initial state. -/
def genState.init : genState := {}

/-- `stringSetMap.addTo` on `typesByName`. -/
def addToByName (m : List (String × List String)) (set val : String) :
    List (String × List String) :=
  match lookupA m set with
  | none => insertA m set (setAdd [] val)
  | some s => insertA m set (setAdd s val)

/-- `getTypeString` (the `needTimeImport = true` side effect of the
`"date-time"` format is returned as a state update by `getTypeStringSt`
below; braces in Go type literals are escaped as `\x7b`/`\x7d`). -/
def getTypeString (jsonType format : String) : String :=
  if format = "date-time" then "time.Time"
  else if jsonType = "string" then "string"
  else if jsonType = "integer" then "int"
  else if jsonType = "number" then "float64"
  else if jsonType = "boolean" then "bool"
  else if jsonType = "null" then "nil"
  else if jsonType = "array" ∨ jsonType = "object" then jsonType
  else "interface\x7b\x7d"

/-- `getTypeString` together with its write to the global
`needTimeImport` flag. -/
def getTypeStringSt (st : genState) (jsonType format : String) :
    genState × String :=
  (if format = "date-time" then { st with needTimeImport := true } else st,
   getTypeString jsonType format)

/-- Simplified stand-in for the external `inflector.Singularize`
(github.com/gedex/inflector): strip a plural suffix when one is apparent.
No claim below depends on its exact output. -/
def inflectorSingularize (s : String) : String :=
  if s.endsWith "ies" then (s.dropRight 3) ++ "y"
  else if s.endsWith "ss" then s
  else if s.endsWith "s" then s.dropRight 1
  else s

/-- `singularize`: the repository's wrapper adding the `"Item"` fallback
when singularization leaves the word unchanged. -/
def singularize (plural : String) : String :=
  let singular := inflectorSingularize plural
  if singular = plural then singular ++ "Item" else singular

/-- `parseAdditionalProperties`: a boolean keeps its value with no schema,
a schema object means `true` plus the schema, anything else (absence) means
`false`. -/
def parseAdditionalProperties : addlSpec → Bool × Option metaSchema
  | .bool b => (b, none)
  | .schema s => (true, some s)
  | .noAddl => (false, none)

/- ## Type graph builder (`processType`, `parseDefs`; `generator.go` lines
392-617, 677-685) -/

/-- The shape of a recursive `processType` invocation with fuel and
configuration already fixed: arguments are state, schema node, proposed
name, proposed description, path, parent path; the result is the updated
state and the returned `typeRef` (`""` means "unresolved, deferred"). -/
def RecFun : Type :=
  genState → metaSchema → String → String → String → String →
    Except genErr (genState × String)

/-- The original (pre-disambiguation) name of a node (lines 414-421): the
root uses the configured root type name; elsewhere the node's own title is
preferred, falling back to the caller-supplied name. -/
def origNameFor (cfg : Config) (s : metaSchema) (pName path : String) :
    String :=
  if path = "#" then cfg.rootTypeName
  else if s.Title ≠ "" then s.Title else pName

/-- The generated name of a node (lines 414-423): the root name is used
verbatim; elsewhere the original name runs through `generateTypeName`. -/
def typeNameFor (cfg : Config) (s : metaSchema) (pName path : String) :
    String :=
  if path = "#" then cfg.rootTypeName
  else generateTypeName cfg (origNameFor cfg s pName path)

/-- `deferredTypes[path] = deferredType{schema: s, name: pName, desc:
pDesc, parentPath: parentPath}`. -/
def deferNode (st : genState) (path : String) (s : metaSchema)
    (pName pDesc parentPath : String) : genState :=
  { st with deferredTypes :=
      insertA st.deferredTypes path ⟨s, pName, pDesc, parentPath⟩ }

/-- The deferred registration of `processType` (lines 440-443): store the
descriptor under its path and claim its name, run at every return that is
reached after the registration point. -/
def registerType (st : genState) (path : String) (gt : goType) : genState :=
  { st with types := insertA st.types path gt,
            typesByName := addToByName st.typesByName gt.Name path }

/-- `parseDefs` (lines 677-685), with the recursive `processType` call
abstracted as `recurse`: resolve each definition as an independent named
type parented at `path`, recording a deferred entry for any that cannot
complete yet. -/
def parseDefsWith (recurse : RecFun) (st : genState) (path : String) :
    List (String × metaSchema) → Except genErr genState
  | [] => .ok st
  | (defName, defSchema) :: rest => do
    let (st1, name) ← recurse st defSchema defName defSchema.Description
        (path ++ "/definitions/" ++ defName) path
    let st2 :=
      if name = "" then
        deferNode st1 (path ++ "/definitions/" ++ defName) defSchema defName
          defSchema.Description path
      else st1
    parseDefsWith recurse st2 path rest

/-- The `s.Type` inspection of `processType` (lines 445-458): a two-element
type array containing `"null"` yields the other element and nullability;
a single string yields itself; everything else leaves the `jsonType`
empty. -/
def typeNullable : TypeSpec → Bool × String
  | .arr [t1, t2] =>
    if t1 = "null" ∨ t2 = "null" then
      (true, if t1 = "null" then t2 else t1)
    else (false, "")
  | .arr _ => (false, "")
  | .str t => (false, t)
  | .noSpec => (false, "")

/-- The per-field `propSchema.Type` switch (lines 543-559).  Note that a
type array that is not a two-element array containing `"null"` leaves the
field's type prefix empty (`""`), and only an absent `type` yields
`interface\x7b\x7d`. -/
def fieldTypeSwitch (st : genState) (sf : structField) (ts : TypeSpec)
    (format : String) : genState × structField :=
  match ts with
  | .arr [t1, t2] =>
    if t1 = "null" ∨ t2 = "null" then
      let jsonType := if t1 = "null" then t2 else t1
      let (st, tstr) := getTypeStringSt st jsonType format
      (st, { sf with Nullable := true, TypePref := tstr })
    else (st, sf)
  | .arr _ => (st, sf)
  | .str t =>
    let (st, tstr) := getTypeStringSt st t format
    (st, { sf with TypePref := tstr })
  | .noSpec => (st, { sf with TypePref := "interface\x7b\x7d" })

/-- Outcome of processing one property (one iteration of the loop at lines
517-614): either a finished field, or "defer the whole parent node"
(which the loop propagates as an early `return ""`). -/
inductive fieldOut where
  | fieldDone (st : genState) (sf : structField) : fieldOut
  | fieldDefer (st : genState) : fieldOut

/-- One iteration of the property loop of `processType` (lines 517-613),
with the recursive `processType` call abstracted as `recurse`.  `s`,
`pName`, `pDesc`, `path`, `parentPath` are the containing node's data
(used for the deferred entry when the field's dependency is unresolved). -/
def processFieldWith (recurse : RecFun) (st : genState) (s : metaSchema)
    (pName pDesc path parentPath : String) (required : List String)
    (propName : String) (propSchema : metaSchema) : Except genErr fieldOut := do
  -- lines 518-531: serialization name, required flag, field name
  let sf : structField :=
    { PropertyName := propName, Required := required.contains propName }
  let fieldName :=
    if propSchema.Title ≠ "" then propSchema.Title else propName
  let sfName := generateFieldName fieldName
  if sfName = "" then .error .noFieldName else do
  let sf := { sf with Name := sfName }
  -- lines 533-541: reference fields are aliases; unresolved targets defer
  -- the whole parent node
  if propSchema.Ref ≠ "" then
    match lookupA st.types propSchema.Ref with
    | some refType =>
      .ok (.fieldDone st
        { sf with TypeRef := propSchema.Ref, Nullable := refType.Nullable })
    | none => .ok (.fieldDefer (deferNode st path s pName pDesc parentPath))
  else do
  -- lines 543-559
  let (st, sf) := fieldTypeSwitch st sf propSchema.TypeOf propSchema.Format
  -- lines 561-565
  let refPath := path ++ "/properties/" ++ propName
  let props := propSchema.Properties
  let hasProps := props.length != 0
  let (hasAddlProps, addlPropsSchema) :=
    parseAdditionalProperties propSchema.AdditionalProperties
  -- lines 567-581: object-typed fields
  if sf.TypePref = "object" then
    if hasProps && !hasAddlProps then do
      -- line 569: the recursive result is stored unchecked, even when ""
      let (st, gotType) ← recurse st propSchema sf.Name propSchema.Description
          refPath path
      .ok (.fieldDone st { sf with TypeRef := gotType })
    else if !hasProps && hasAddlProps && addlPropsSchema.isSome then do
      let singularName := singularize propName
      let (st, gotType) ← recurse st (addlPropsSchema.getD emptySchema)
          singularName propSchema.Description
          (refPath ++ "/additionalProperties") path
      if gotType = "" then
        .ok (.fieldDefer (deferNode st path s pName pDesc parentPath))
      else
        .ok (.fieldDone st
          { sf with TypePref := "map[string]", TypeRef := gotType })
    else
      .ok (.fieldDone st { sf with TypePref := "map[string]interface\x7b\x7d" })
  -- lines 582-611: array-typed fields
  else if sf.TypePref = "array" then
    match propSchema.Items with
    | .tuple arrayItemType =>
      if arrayItemType.length = 1 then do
        let singularName := singularize propName
        let typeSchema := arrayItemType.headD emptySchema
        let (st, gotType) ← recurse st typeSchema singularName
            propSchema.Description (refPath ++ "/items/0") path
        if gotType = "" then
          .ok (.fieldDefer (deferNode st path s pName pDesc parentPath))
        else
          .ok (.fieldDone st { sf with TypePref := "[]", TypeRef := gotType })
      else
        .ok (.fieldDone st { sf with TypePref := "[]interface\x7b\x7d" })
    | .single arrayItemType => do
      let singularName := singularize propName
      let (st, gotType) ← recurse st arrayItemType singularName
          propSchema.Description (refPath ++ "/items") path
      if gotType = "" then
        .ok (.fieldDefer (deferNode st path s pName pDesc parentPath))
      else
        .ok (.fieldDone st { sf with TypePref := "[]", TypeRef := gotType })
    | .noItems => .ok (.fieldDone st { sf with TypePref := "[]interface\x7b\x7d" })
  else
    .ok (.fieldDone st sf)

/-- Outcome of the whole property loop: completed (fall through to the
成功 return) or deferred (early `return ""`).  In both cases the deferred
registration still stores the (possibly partial) descriptor. -/
inductive fieldsOut where
  | completedF (st : genState) (gt : goType) : fieldsOut
  | deferredF (st : genState) (gt : goType) : fieldsOut

/-- The property loop of `processType` (lines 517-614): one
`processFieldWith` per property, appending each finished field to
`gt.Fields`; a deferring field aborts the loop, dropping its own partial
field. -/
def processFieldsWith (recurse : RecFun) (st : genState) (s : metaSchema)
    (pName pDesc path parentPath : String) (required : List String)
    (gt : goType) : List (String × metaSchema) → Except genErr fieldsOut
  | [] => .ok (.completedF st gt)
  | (propName, propSchema) :: rest => do
    match ← processFieldWith recurse st s pName pDesc path parentPath
        required propName propSchema with
    | .fieldDone st1 sf =>
      processFieldsWith recurse st1 s pName pDesc path parentPath required
        { gt with Fields := gt.Fields ++ [sf] } rest
    | .fieldDefer st1 => .ok (.deferredF st1 gt)

/-- Outcome of the structural-kind dispatch (the `switch typeString` at
lines 465-515): proceed to the property loop, or defer the whole node
(early `return ""`). -/
inductive dispatchOut where
  | proceed (st : genState) (gt : goType) : dispatchOut
  | deferredRet (st : genState) (gt : goType) : dispatchOut

/-- The structural-kind dispatch of `processType` (the `switch typeString`
at lines 465-515), with the recursive call abstracted as `recurse`:
object nodes become structs, maps over a resolved additional-properties
schema, or untyped maps — with the debugging panic on a type named
"Properties" first; array nodes resolve their element schema; scalars keep
their type string. -/
def dispatchKind (recurse : RecFun) (st : genState) (s : metaSchema)
    (gt : goType) (typeString : String) (hasProps hasAddlProps : Bool)
    (addlPropsSchema : Option metaSchema)
    (pName pDesc path parentPath : String) : Except genErr dispatchOut :=
  if typeString = "object" then
    if gt.Name = "Properties" then .error .panicProperties
    else if hasProps && !hasAddlProps then
      .ok (.proceed st { gt with TypePref := "struct" })
    else if !hasProps && hasAddlProps && addlPropsSchema.isSome then do
      let singularName := singularize gt.origTypeName
      let (st, gotType) ← recurse st (addlPropsSchema.getD emptySchema)
          singularName s.Description (path ++ "/additionalProperties") path
      if gotType = "" then
        .ok (.deferredRet (deferNode st path s pName pDesc parentPath) gt)
      else
        .ok (.proceed st
          { gt with TypePref := "map[string]", TypeRef := gotType })
    else
      .ok (.proceed st { gt with TypePref := "map[string]interface\x7b\x7d" })
  else if typeString = "array" then
    match s.Items with
    | .tuple arrayItemType =>
      if arrayItemType.length = 1 then do
        let singularName := singularize gt.origTypeName
        let typeSchema := arrayItemType.headD emptySchema
        let (st, gotType) ← recurse st typeSchema singularName s.Description
            (path ++ "/items/0") path
        if gotType = "" then
          .ok (.deferredRet (deferNode st path s pName pDesc parentPath) gt)
        else
          .ok (.proceed st { gt with TypePref := "[]", TypeRef := gotType })
      else
        .ok (.proceed st { gt with TypePref := "[]interface\x7b\x7d" })
    | .single arrayItemType => do
      let singularName := singularize gt.origTypeName
      let (st, gotType) ← recurse st arrayItemType singularName s.Description
          (path ++ "/items") path
      if gotType = "" then
        .ok (.deferredRet (deferNode st path s pName pDesc parentPath) gt)
      else
        .ok (.proceed st { gt with TypePref := "[]", TypeRef := gotType })
    | .noItems => .ok (.proceed st { gt with TypePref := "[]interface\x7b\x7d" })
  else
    .ok (.proceed st { gt with TypePref := typeString })

/-- `processType` (lines 392-617).  The explicit fuel only bounds the
recursion depth of the embedding; it exceeds the structural depth of every
schema the wrappers below pass in.  The Go `defer` that stores the
descriptor and claims its name (lines 440-443) is `registerType`, applied
at every return site reached after the registration point; `log.Fatalln`
sites become errors that skip it (Go's `os.Exit` does not run deferred
functions). -/
def processType : Nat → Config → genState → metaSchema → String → String →
    String → String → Except genErr (genState × String)
  | 0, _, _, _, _, _, _, _ => .error .outOfFuel
  | fuel + 1, cfg, st0, s, pName, pDesc, path, parentPath => do
    -- lines 393-395: nested definitions first
    let st ←
      if s.Definitions.length > 0 then
        parseDefsWith (fun st s n d p pp => processType fuel cfg st s n d p pp)
          st0 path s.Definitions
      else .ok st0
    -- lines 397-402: the root type is always nullable
    let gt : goType := { Nullable := path = "#" }
    -- lines 404-410: internal references are aliases, or defer
    if s.Ref ≠ "" then
      if (lookupA st.types s.Ref).isSome then .ok (st, s.Ref)
      else .ok (deferNode st path s pName pDesc parentPath, "")
    else do
    let gt := { gt with parentPath := parentPath }
    -- lines 414-426: original name and generated name (the emptiness check
    -- fires only away from the root)
    if path ≠ "#" ∧ typeNameFor cfg s pName path = "" then .error .noTypeName
    else do
    let gt := { gt with origTypeName := origNameFor cfg s pName path,
                        Name := typeNameFor cfg s pName path }
    -- lines 430-433
    let gt := { gt with
      Comment := if s.Description ≠ "" then s.Description else pDesc }
    -- lines 435-438
    let required := s.Required
    -- lines 445-458
    let (nullFlag, jsonType) := typeNullable s.TypeOf
    let gt := if nullFlag then { gt with Nullable := true } else gt
    -- lines 460-462
    let props := s.Properties
    let hasProps := props.length != 0
    let (hasAddlProps, addlPropsSchema) :=
      parseAdditionalProperties s.AdditionalProperties
    -- line 464
    let (st, typeString) := getTypeStringSt st jsonType s.Format
    -- lines 465-515
    let dispE : Except genErr dispatchOut :=
      dispatchKind (fun st s n d p pp => processType fuel cfg st s n d p pp)
        st s gt typeString hasProps hasAddlProps addlPropsSchema pName pDesc
        path parentPath
    let disp ← dispE
    match disp with
    | .deferredRet st gt => .ok (registerType st path gt, "")
    | .proceed st gt =>
      -- lines 517-614, then the named return of `typeRef = path`
      match ← processFieldsWith
          (fun st s n d p pp => processType fuel cfg st s n d p pp)
          st s pName pDesc path parentPath required gt props with
      | .completedF st gt => .ok (registerType st path gt, path)
      | .deferredF st gt => .ok (registerType st path gt, "")

/- ## Deferred reference resolver (`processDeferred`; lines 619-636) -/

mutual
/-- Computable structural size of a schema node (the auto-derived `sizeOf`
of the mutual nested inductive is not computable). -/
def metaSchema.size : metaSchema → Nat
  | .mk _ _ _ _ props items _ defs addl _ =>
    1 + sizePairs props + itemsSpec.size items + sizePairs defs +
      addlSpec.size addl

/-- Size of a name-to-schema list. -/
def sizePairs : List (String × metaSchema) → Nat
  | [] => 0
  | (_, s) :: rest => 1 + metaSchema.size s + sizePairs rest

/-- Size of an `items` specifier. -/
def itemsSpec.size : itemsSpec → Nat
  | .noItems => 0
  | .single s => 1 + metaSchema.size s
  | .tuple ss => 1 + sizeSchemas ss

/-- Size of a schema list. -/
def sizeSchemas : List metaSchema → Nat
  | [] => 0
  | s :: rest => 1 + metaSchema.size s + sizeSchemas rest

/-- Size of an `additionalProperties` specifier. -/
def addlSpec.size : addlSpec → Nat
  | .noAddl => 0
  | .bool _ => 0
  | .schema s => 1 + metaSchema.size s
end

/-- Fuel that strictly exceeds the structural recursion depth of
`processType` on `s` (the depth of a schema is bounded by its size). -/
def schemaFuel (s : metaSchema) : Nat := s.size + 1

/-- One round of `processDeferred`: re-attempt every snapshot entry via
`processType`, removing entries that succeed (the Go code iterates the
live map; the embedding iterates the round-start snapshot, the two-phase
determinization the spec itself prescribes in §9). -/
def processDeferredRound (cfg : Config) :
    genState → List (String × deferredType) → Except genErr genState
  | st, [] => .ok st
  | st, (path, d) :: rest => do
    let (st1, name) ← processType (schemaFuel d.schema) cfg st d.schema
        d.name d.desc path d.parentPath
    let st2 :=
      if name ≠ "" then
        { st1 with deferredTypes := removeA st1.deferredTypes path }
      else st1
    processDeferredRound cfg st2 rest

/-- `processDeferred` (lines 619-636): rounds of re-attempts; a round that
leaves the deferred path set unchanged means resolution is stuck and is a
fatal `cantResolve`. -/
def processDeferred (cfg : Config) : Nat → genState → Except genErr genState
  | 0, _ => .error .outOfFuel
  | fuel + 1, st =>
    if st.deferredTypes.isEmpty then .ok st
    else do
      let startDeferredPaths := keysA st.deferredTypes
      let st1 ← processDeferredRound cfg st st.deferredTypes
      let endDeferredPaths := keysA st1.deferredTypes
      if setEq endDeferredPaths startDeferredPaths then
        .error (.cantResolve startDeferredPaths)
      else processDeferred cfg fuel st1

/- ## Name deduplicator (`dedupeTypes`; lines 638-675) -/

/-- Processing of one colliding path (the body of the inner `for dupePath
:= range dupes` loop, lines 651-672).  A missing `types` or parent entry
is the Go zero value, as with a Go map read. -/
def dedupeStep (cfg : Config) (st : genState) (dupes : List String)
    (dupePath : String) : Except genErr genState :=
  let gt := (lookupA st.types dupePath).getD {}
  let parent := (lookupA st.types gt.parentPath).getD {}
  -- handle parents before children to avoid stuttering
  if (lookupA st.typesByName parent.Name).isSome then
    .ok { st with typesByName := addToByName st.typesByName gt.Name dupePath }
  else if parent.origTypeName = "" then
    .error (.cantDisambiguate dupes)
  else
    let gt := { gt with
      origTypeName := parent.origTypeName ++ "-" ++ gt.origTypeName }
    let gt := { gt with Name := generateTypeName cfg gt.origTypeName }
    .ok { st with types := insertA st.types dupePath gt,
                  typesByName := addToByName st.typesByName gt.Name dupePath }

/-- All colliding paths of one name. -/
def dedupePaths (cfg : Config) (dupes : List String) :
    genState → List String → Except genErr genState
  | st, [] => .ok st
  | st, p :: rest => do
    let st1 ← dedupeStep cfg st dupes p
    dedupePaths cfg dupes st1 rest

/-- One registry entry of a dedupe round: capture the name's path set,
delete the entry (line 649), then process each captured path. -/
def dedupeName (cfg : Config) (st : genState) (name : String) :
    Except genErr genState :=
  match lookupA st.typesByName name with
  | none => .ok st
  | some dupes =>
    let st := { st with typesByName := removeA st.typesByName name }
    dedupePaths cfg dupes st dupes

/-- The remaining names of a dedupe round, in snapshot order. -/
def dedupeNames (cfg : Config) : genState → List String → Except genErr genState
  | st, [] => .ok st
  | st, name :: rest => do
    let st1 ← dedupeName cfg st name
    dedupeNames cfg st1 rest

/-- Line 641-645: drop every name that maps to exactly one path. -/
def dropSingles (m : List (String × List String)) :
    List (String × List String) :=
  m.filter fun nd => nd.2.length ≠ 1

/-- `dedupeTypes` (lines 638-675): rounds over the name registry —
clear unique names, then rename every remaining colliding path (or
postpone it when its parent is itself still colliding). -/
def dedupeTypes (cfg : Config) : Nat → genState → Except genErr genState
  | 0, _ => .error .outOfFuel
  | fuel + 1, st =>
    if st.typesByName.isEmpty then .ok st
    else do
      let st := { st with typesByName := dropSingles st.typesByName }
      let st1 ← dedupeNames cfg st (keysA st.typesByName)
      dedupeTypes cfg fuel st1

/- ## Pipeline and emission order (`main`, lines 700-726; `print`, line 85)
-/

/-- `parseDefs` as called from `main` (line 700), with sufficient fuel for
each definition. -/
def parseDefs (cfg : Config) (st : genState) (s : metaSchema)
    (path : String) : Except genErr genState :=
  parseDefsWith
    (fun st t n d p pp => processType (schemaFuel t) cfg st t n d p pp)
    st path s.Definitions

/-- The resolution pipeline of `main` (lines 700-709): `parseDefs`,
`processType` on the root (its returned ref is ignored, as in the source),
`processDeferred`, `dedupeTypes`.  `loopFuel` bounds the two fixpoint
loops of the embedding. -/
def mainResolve (cfg : Config) (s : metaSchema) (loopFuel : Nat) :
    Except genErr genState := do
  let st ← parseDefs cfg genState.init s "#"
  let (st, _) ← processType (schemaFuel s) cfg st s cfg.rootTypeName
      s.Description "#" ""
  let st ← processDeferred cfg loopFuel st
  dedupeTypes cfg loopFuel st

/-- Lexicographic byte order on ASCII strings: Go's `<` on strings, used by
the `Less` methods of the two `sort.Stable` call sites. -/
def goStringLtChars : List Char → List Char → Bool
  | [], [] => false
  | [], _ :: _ => true
  | _ :: _, [] => false
  | a :: as, b :: bs =>
    if a.toNat < b.toNat then true
    else if b.toNat < a.toNat then false
    else goStringLtChars as bs

/-- Go string `<`. -/
def goStringLt (a b : String) : Bool := goStringLtChars a.data b.data

/-- Stable insertion for `sort.Stable(gt.Fields)` (`print`, line 85):
an element moves past strictly smaller names only, so the original order
among equal names is preserved, as with Go's `sort.Stable`. -/
def stableInsertField (x : structField) :
    List structField → List structField
  | [] => [x]
  | y :: ys =>
    if goStringLt y.Name x.Name then y :: stableInsertField x ys
    else x :: y :: ys

/-- `sort.Stable` on fields ordered by `Less`, i.e. by generated name. -/
def sortFieldsStable : List structField → List structField
  | [] => []
  | x :: xs => stableInsertField x (sortFieldsStable xs)

/-- Stable insertion for `sort.Stable(typesSlice)` (`main`, line 722). -/
def stableInsertType (x : goType) : List goType → List goType
  | [] => [x]
  | y :: ys =>
    if goStringLt y.Name x.Name then y :: stableInsertType x ys
    else x :: y :: ys

/-- `sort.Stable` on descriptors ordered by generated name. -/
def sortTypesStable : List goType → List goType
  | [] => []
  | x :: xs => stableInsertType x (sortTypesStable xs)

/-- The emitted descriptor order (`main` lines 718-722: the descriptor
table in map order, stably sorted by name). -/
def emittedTypes (st : genState) : List goType :=
  sortTypesStable (st.types.map Prod.snd)

/-- The emitted field order of one descriptor (`print` line 85). -/
def emittedFields (gt : goType) : List structField :=
  sortFieldsStable gt.Fields

/- ## Basic lemmas about the embedding's building blocks -/

theorem exbind_ok {ε α β : Type} (a : α) (f : α → Except ε β) :
    (Except.ok a >>= f) = f a := rfl

theorem exbind_err {ε α β : Type} (e : ε) (f : α → Except ε β) :
    ((Except.error e : Except ε α) >>= f) = .error e := rfl

theorem exbind_ok_inv {ε α β : Type} {x : Except ε α} {f : α → Except ε β}
    {b : β} (h : (x >>= f) = .ok b) : ∃ a, x = .ok a ∧ f a = .ok b := by
  cases x with
  | ok a => exact ⟨a, rfl, h⟩
  | error e => rw [exbind_err] at h; exact absurd h (by simp)

theorem lookupA_insertA_self {α : Type} (m : List (String × α)) (k : String)
    (v : α) : lookupA (insertA m k v) k = some v := by
  induction m with
  | nil => simp [insertA, lookupA]
  | cons kv rest ih =>
    obtain ⟨k1, v1⟩ := kv
    by_cases h : k1 = k <;> simp [insertA, lookupA, h, ih]

theorem registerType_lookup (st : genState) (path : String) (gt : goType) :
    lookupA (registerType st path gt).types path = some gt := by
  simp [registerType, lookupA_insertA_self]

/-- The property loop only ever extends the descriptor's field list; every
other descriptor component passes through unchanged. -/
theorem processFieldsWith_shape (recurse : RecFun) (s : metaSchema)
    (pName pDesc path parentPath : String) (required : List String) :
    ∀ (props : List (String × metaSchema)) (st : genState) (gt : goType)
      (out : fieldsOut),
      processFieldsWith recurse st s pName pDesc path parentPath required gt
        props = .ok out →
      ∃ st2 fs, out = .completedF st2 { gt with Fields := fs } ∨
        out = .deferredF st2 { gt with Fields := fs } := by
  intro props
  induction props with
  | nil =>
    intro st gt out heq
    simp [processFieldsWith] at heq
    exact ⟨st, gt.Fields, Or.inl heq.symm⟩
  | cons p rest ih =>
    intro st gt out heq
    obtain ⟨propName, propSchema⟩ := p
    simp only [processFieldsWith] at heq
    cases hf : processFieldWith recurse st s pName pDesc path parentPath
        required propName propSchema with
    | error e => rw [hf] at heq; simp [exbind_err] at heq
    | ok fo =>
      rw [hf] at heq
      cases fo with
      | fieldDone st1 sf =>
        simp only [exbind_ok] at heq
        obtain ⟨st2, fs, hout⟩ := ih st1 { gt with Fields := gt.Fields ++ [sf] }
          out heq
        exact ⟨st2, fs, hout⟩
      | fieldDefer st1 =>
        simp only [exbind_ok] at heq
        cases heq
        exact ⟨st1, gt.Fields, Or.inr rfl⟩

/-- Every descriptor carried by a dispatch outcome agrees with the incoming
descriptor on everything except `TypePref` and `TypeRef`. -/
theorem dispatchKind_gt (recurse : RecFun) (st : genState) (s : metaSchema)
    (gt : goType) (typeString : String) (hasProps hasAddlProps : Bool)
    (addlPropsSchema : Option metaSchema) (pName pDesc path parentPath : String)
    (d : dispatchOut)
    (heq : dispatchKind recurse st s gt typeString hasProps hasAddlProps
      addlPropsSchema pName pDesc path parentPath = .ok d) :
    ∃ st1 gt1, (d = .proceed st1 gt1 ∨ d = .deferredRet st1 gt1) ∧
      gt1.Nullable = gt.Nullable ∧ gt1.Name = gt.Name ∧
      gt1.origTypeName = gt.origTypeName ∧ gt1.parentPath = gt.parentPath ∧
      gt1.Comment = gt.Comment ∧ gt1.Fields = gt.Fields := by
  simp only [dispatchKind, bind, Except.bind] at heq
  iterate 12 (all_goals (try split at heq))
  all_goals first
    | (cases heq; exact ⟨_, _, Or.inl rfl, by simp⟩)
    | (cases heq; exact ⟨_, _, Or.inr rfl, by simp⟩)
    | (exact absurd heq (by simp))

/-- Projecting the type string out of the flag-updating wrapper. -/
theorem getTypeStringSt_snd (st : genState) (j f : String) :
    (getTypeStringSt st j f).2 = getTypeString j f := rfl

/-- The field-loop tail preserves the descriptor's Nullable flag. -/
theorem fieldsTail_nullable {rec : RecFun} {stA : genState} {s : metaSchema}
    {pName pDesc path parentPath : String} {req : List String} {gt0 : goType}
    {props : List (String × metaSchema)} {stZ : genState} {gtZ : goType}
    {out : fieldsOut}
    (h : processFieldsWith rec stA s pName pDesc path parentPath req gt0
      props = .ok out)
    (hout : out = .completedF stZ gtZ ∨ out = .deferredF stZ gtZ) :
    gtZ.Nullable = gt0.Nullable := by
  obtain ⟨st2, fs, hsh⟩ := processFieldsWith_shape rec s pName pDesc path
    parentPath req props stA gt0 out h
  rcases hsh with hsh | hsh <;> rcases hout with hout | hout <;>
    (subst hsh; cases hout) <;> simp

/-- The field-loop tail preserves the descriptor's type prefix. -/
theorem fieldsTail_pref {rec : RecFun} {stA : genState} {s : metaSchema}
    {pName pDesc path parentPath : String} {req : List String} {gt0 : goType}
    {props : List (String × metaSchema)} {stZ : genState} {gtZ : goType}
    {out : fieldsOut}
    (h : processFieldsWith rec stA s pName pDesc path parentPath req gt0
      props = .ok out)
    (hout : out = .completedF stZ gtZ ∨ out = .deferredF stZ gtZ) :
    gtZ.TypePref = gt0.TypePref := by
  obtain ⟨st2, fs, hsh⟩ := processFieldsWith_shape rec s pName pDesc path
    parentPath req props stA gt0 out h
  rcases hsh with hsh | hsh <;> rcases hout with hout | hout <;>
    (subst hsh; cases hout) <;> simp

/- ## Concrete fixtures for counterexamples and witnesses -/

/-- The default configuration: `package main`, no prefix, root type name
derived from a schema file called `root`. -/
def mainCfg : Config :=
  { packageName := "main", typeNamesPref := "", rootTypeName := "root" }

/-- A plain string-typed schema node. -/
def strSchema : metaSchema :=
  .mk "" "" (.str "string") [] [] .noItems "" [] .noAddl ""

/-- An object schema with the given properties and nothing else. -/
def objWith (props : List (String × metaSchema)) : metaSchema :=
  .mk "" "" (.str "object") [] props .noItems "" [] .noAddl ""

/-- A pure internal-reference schema node. -/
def refSchema (r : String) : metaSchema :=
  .mk "" "" .noSpec [] [] .noItems "" [] .noAddl r

/-- Extract the state of a successful builder result. -/
def stateOf (r : Except genErr (genState × String)) : genState :=
  match r with
  | .ok (st, _) => st
  | .error _ => genState.init

/-- The generated name of the descriptor at a path of a pipeline result. -/
def namesAt (r : Except genErr genState) (p : String) : Option String :=
  match r with
  | .ok st => (lookupA st.types p).map goType.Name
  | .error _ => none

/-- Whether a pipeline result completed without a fatal error. -/
def isOkE (r : Except genErr genState) : Bool :=
  match r with
  | .ok _ => true
  | .error _ => false

/-- The (name, type prefix) pairs of the fields of the descriptor at a path
of a builder result. -/
def fieldsAt (r : Except genErr (genState × String)) (p : String) :
    Option (List (String × String)) :=
  match r with
  | .ok (st, _) =>
    (lookupA st.types p).map fun gt =>
      gt.Fields.map fun f => (f.Name, f.TypePref)
  | .error _ => none

/-- The root descriptor's fields of a pipeline result, in emission order,
as (generated name, original property name) pairs. -/
def rootFieldsEmitted (r : Except genErr genState) : List (String × String) :=
  match r with
  | .ok st =>
    match lookupA st.types "#" with
    | some gt => (emittedFields gt).map fun f => (f.Name, f.PropertyName)
    | none => []
  | .error _ => []

/- ## Claim theorems -/

/-- C6: for every input document, the descriptor created for the document
root (path `"#"`) has its Nullable flag set to true, regardless of the root
node's type specifier: any successful `processType` run at the root path
leaves a descriptor at `"#"` whose Nullable flag is true.  (A root that is
itself an internal reference creates no root descriptor at all, so the
claim concerns non-reference roots.) -/
theorem C6_root_descriptor_nullable
    (fuel : Nat) (cfg : Config) (st0 : genState) (s : metaSchema)
    (pName pDesc parentPath : String) (st' : genState) (r : String)
    (href : s.Ref = "")
    (heq : processType (fuel + 1) cfg st0 s pName pDesc "#" parentPath =
      .ok (st', r)) :
    ∃ gt, lookupA st'.types "#" = some gt ∧ gt.Nullable = true := by
  simp only [processType, bind, Except.bind, href, ne_eq, reduceIte,
    decide_True, ite_self, not_true_eq_false, false_and, if_false] at heq
  split at heq
  case isTrue =>
    split at heq
    case h_1 => exact absurd heq (by simp)
    case h_2 v hdefs =>
      split at heq
      case h_1 => exact absurd heq (by simp)
      case h_2 d hdisp =>
        obtain ⟨st1, gt1, hor, hnul, _⟩ :=
          dispatchKind_gt _ _ _ _ _ _ _ _ _ _ _ _ _ hdisp
        split at heq
        case h_1 stX gtX =>
          rcases hor with hor | hor
          · exact absurd hor (by simp)
          · injection hor with h1 h2
            simp only [Except.ok.injEq, Prod.mk.injEq] at heq
            obtain ⟨hst, -⟩ := heq
            subst hst
            refine ⟨gtX, registerType_lookup _ _ _, ?_⟩
            rw [h2]; simpa using hnul
        case h_2 stX gtX =>
          rcases hor with hor | hor
          · injection hor with h1 h2
            split at heq
            case h_1 => exact absurd heq (by simp)
            case h_2 fo hfields =>
              split at heq
              case h_1 stZ gtZ =>
                simp only [Except.ok.injEq, Prod.mk.injEq] at heq
                obtain ⟨hst, -⟩ := heq
                subst hst
                refine ⟨gtZ, registerType_lookup _ _ _, ?_⟩
                rw [fieldsTail_nullable hfields (Or.inl rfl), h2]
                simpa using hnul
              case h_2 stZ gtZ =>
                simp only [Except.ok.injEq, Prod.mk.injEq] at heq
                obtain ⟨hst, -⟩ := heq
                subst hst
                refine ⟨gtZ, registerType_lookup _ _ _, ?_⟩
                rw [fieldsTail_nullable hfields (Or.inr rfl), h2]
                simpa using hnul
          · exact absurd hor (by simp)
  case isFalse =>
    split at heq
    case h_1 => exact absurd heq (by simp)
    case h_2 d hdisp =>
      obtain ⟨st1, gt1, hor, hnul, _⟩ :=
        dispatchKind_gt _ _ _ _ _ _ _ _ _ _ _ _ _ hdisp
      split at heq
      case h_1 stX gtX =>
        rcases hor with hor | hor
        · exact absurd hor (by simp)
        · injection hor with h1 h2
          simp only [Except.ok.injEq, Prod.mk.injEq] at heq
          obtain ⟨hst, -⟩ := heq
          subst hst
          refine ⟨gtX, registerType_lookup _ _ _, ?_⟩
          rw [h2]; simpa using hnul
      case h_2 stX gtX =>
        rcases hor with hor | hor
        · injection hor with h1 h2
          split at heq
          case h_1 => exact absurd heq (by simp)
          case h_2 fo hfields =>
            split at heq
            case h_1 stZ gtZ =>
              simp only [Except.ok.injEq, Prod.mk.injEq] at heq
              obtain ⟨hst, -⟩ := heq
              subst hst
              refine ⟨gtZ, registerType_lookup _ _ _, ?_⟩
              rw [fieldsTail_nullable hfields (Or.inl rfl), h2]
              simpa using hnul
            case h_2 stZ gtZ =>
              simp only [Except.ok.injEq, Prod.mk.injEq] at heq
              obtain ⟨hst, -⟩ := heq
              subst hst
              refine ⟨gtZ, registerType_lookup _ _ _, ?_⟩
              rw [fieldsTail_nullable hfields (Or.inr rfl), h2]
              simpa using hnul
        · exact absurd hor (by simp)

/-- Witness for C6: a concrete run on the empty root schema produces a
nullable root descriptor. -/
theorem C6_root_descriptor_nullable_witness :
    ∃ gt, lookupA (stateOf (processType 1 mainCfg genState.init emptySchema
      "r" "" "#" "")).types "#" = some gt ∧ gt.Nullable = true :=
  C6_root_descriptor_nullable 0 mainCfg genState.init emptySchema "r" "" ""
    (stateOf (processType 1 mainCfg genState.init emptySchema "r" "" "#" ""))
    "#" rfl rfl

/-- C9: for every object-category schema node whose generated type name is
exactly "Properties", resolution panics unconditionally — before the
properties/additionalProperties combination is even examined — so any
schema producing an object type named "Properties" aborts.  (Stated for
nodes without nested definitions; definitions are processed first and
cannot prevent the panic, only fail earlier for their own reasons.) -/
theorem C9_properties_name_panics
    (fuel : Nat) (cfg : Config) (st0 : genState) (s : metaSchema)
    (pName pDesc path parentPath : String)
    (hdefs : s.Definitions = [])
    (href : s.Ref = "")
    (hname : typeNameFor cfg s pName path = "Properties")
    (hobj : getTypeString (typeNullable s.TypeOf).2 s.Format = "object") :
    processType (fuel + 1) cfg st0 s pName pDesc path parentPath =
      .error .panicProperties := by
  simp only [processType, bind, Except.bind, hdefs, href, ne_eq,
    List.length_nil, gt_iff_lt, lt_self_iff_false, if_false, reduceIte,
    not_true_eq_false, false_and, and_false, ite_self, decide_True]
  rw [if_neg (by rw [hname]; simp)]
  simp only [getTypeStringSt_snd, hobj, dispatchKind, reduceIte]
  simp only [hname, apply_ite goType.Name, ite_self, reduceIte]

/-- The schema of the C9 witness: an object titled "properties" in an
exported-names configuration, whose generated type name is "Properties". -/
def c9schema : metaSchema :=
  .mk "properties" "" (.str "object") [] [] .noItems "" [] .noAddl ""

/-- The configuration of the C9 witness: a non-"main" package switches the
identifier generator to exported casing. -/
def c9cfg : Config :=
  { packageName := "schema", typeNamesPref := "", rootTypeName := "root" }

/-- Witness for C9: the concrete run reaches the debugging panic. -/
theorem C9_properties_name_panics_witness :
    processType 1 c9cfg genState.init c9schema "p" "" "#/definitions/p" "#" =
      .error .panicProperties :=
  C9_properties_name_panics 0 c9cfg genState.init c9schema "p" ""
    "#/definitions/p" "#" rfl rfl (by decide) rfl

/-- C10: a property that is an internal reference to a path already present
in the descriptor table produces a field whose Nullable flag is copied from
the referenced descriptor (`refType.Nullable`), not derived from the
property's own type specifier (`ps.TypeOf` is arbitrary and absent from the
result); combined with C6, every field referencing the document root is
nullable. -/
theorem C10_field_ref_copies_nullable (recurse : RecFun) (st : genState)
    (s : metaSchema) (pName pDesc path parentPath : String)
    (req : List String) (propName : String) (ps : metaSchema) (refT : goType)
    (href : ps.Ref ≠ "")
    (hlook : lookupA st.types ps.Ref = some refT)
    (hfn : generateFieldName (if ps.Title ≠ "" then ps.Title else propName) ≠ "") :
    processFieldWith recurse st s pName pDesc path parentPath req propName ps =
      .ok (.fieldDone st
        { Name := generateFieldName (if ps.Title ≠ "" then ps.Title else propName),
          TypeRef := ps.Ref, TypePref := "", Nullable := refT.Nullable,
          PropertyName := propName, Required := req.contains propName }) := by
  simp only [processFieldWith, bind, Except.bind]
  rw [if_neg hfn, if_pos href, hlook]

/-- A recursion stub for witnesses whose scenarios provably never invoke the
recursive call (reference fields short-circuit before any recursion). -/
def noRecurse : RecFun := fun st _ _ _ _ _ => .ok (st, "")

/-- A one-descriptor state for the C10 witness: the root descriptor is
registered, and is nullable. -/
def c10state : genState :=
  { types := [("#", { Name := "root", Nullable := true })],
    deferredTypes := [], typesByName := [("root", ["#"])],
    needTimeImport := false }

/-- Witness for C10: a field referencing the resolved root copies its
nullability. -/
theorem C10_field_ref_copies_nullable_witness :
    processFieldWith noRecurse c10state emptySchema "r" "" "#" "" []
      "self" (refSchema "#") =
      .ok (.fieldDone c10state
        { Name := generateFieldName (if (refSchema "#").Title ≠ ""
            then (refSchema "#").Title else "self"),
          TypeRef := (refSchema "#").Ref, TypePref := "",
          Nullable := ({ Name := "root", Nullable := true } : goType).Nullable,
          PropertyName := "self", Required := [].contains "self" }) :=
  C10_field_ref_copies_nullable noRecurse c10state emptySchema "r" "" "#" ""
    [] "self" (refSchema "#") { Name := "root", Nullable := true }
    (by decide) rfl (by decide)

/-- Helper for C5: resolving a node that is an internal reference to a path
already present in the descriptor table returns that path with the state
untouched — no new descriptor, no new registry entry. -/
theorem processType_ref_is_alias (fuel : Nat) (cfg : Config) (st0 : genState)
    (s : metaSchema) (pName pDesc path parentPath : String)
    (hdefs : s.Definitions = [])
    (href : s.Ref ≠ "")
    (hres : (lookupA st0.types s.Ref).isSome = true) :
    processType (fuel + 1) cfg st0 s pName pDesc path parentPath =
      .ok (st0, s.Ref) := by
  simp only [processType, bind, Except.bind, hdefs, List.length_nil,
    gt_iff_lt, lt_self_iff_false, if_false, ne_eq, reduceIte]
  simp [href, hres]

/-- Helper for C5: a parent object with two properties that are both
internal references to the same resolved path `R` produces one single new
descriptor (its own), whose two fields both carry `TypeRef = R` — the two
properties share the one existing descriptor at `R`. -/
theorem processType_two_refs_share (fuel : Nat) (cfg : Config)
    (st0 : genState) (s ps1 ps2 : metaSchema)
    (pName pDesc path parentPath : String)
    (n1 n2 R : String) (refT : goType)
    (hdefs : s.Definitions = [])
    (href : s.Ref = "")
    (hprops : s.Properties = [(n1, ps1), (n2, ps2)])
    (hty : s.TypeOf = .str "object")
    (hfmt : s.Format ≠ "date-time")
    (haddl : s.AdditionalProperties = .noAddl)
    (hr1 : ps1.Ref = R) (hr2 : ps2.Ref = R) (hR : R ≠ "")
    (hlook : lookupA st0.types R = some refT)
    (hname : ¬(path ≠ "#" ∧ typeNameFor cfg s pName path = ""))
    (hnp : typeNameFor cfg s pName path ≠ "Properties")
    (hf1 : generateFieldName (if ps1.Title ≠ "" then ps1.Title else n1) ≠ "")
    (hf2 : generateFieldName (if ps2.Title ≠ "" then ps2.Title else n2) ≠ "") :
    processType (fuel + 1) cfg st0 s pName pDesc path parentPath =
      .ok (registerType st0 path
        { Name := typeNameFor cfg s pName path, TypeRef := "",
          TypePref := "struct", Nullable := decide (path = "#"),
          Fields :=
            [{ Name := generateFieldName (if ps1.Title ≠ "" then ps1.Title else n1),
               TypeRef := R, TypePref := "", Nullable := refT.Nullable,
               PropertyName := n1, Required := s.Required.contains n1 },
             { Name := generateFieldName (if ps2.Title ≠ "" then ps2.Title else n2),
               TypeRef := R, TypePref := "", Nullable := refT.Nullable,
               PropertyName := n2, Required := s.Required.contains n2 }],
          Comment := if s.Description ≠ "" then s.Description else pDesc,
          parentPath := parentPath,
          origTypeName := origNameFor cfg s pName path }, path) := by
  simp only [processType, bind, Except.bind, hdefs, List.length_nil,
    gt_iff_lt, lt_self_iff_false, if_false, href, ne_eq, reduceIte,
    not_true_eq_false]
  rw [if_neg hname]
  simp only [hty, typeNullable, getTypeStringSt, getTypeString, hprops,
    haddl, parseAdditionalProperties, hfmt, eq_self_iff_true, or_true,
    if_true, if_false, reduceIte, dispatchKind, Bool.false_eq_true,
    ite_false, ite_true, List.length_cons, List.length_nil]
  simp only [String.reduceEq, reduceIte, Nat.reduceAdd]
  rw [if_neg hnp, if_pos (by decide : ((2:Nat) != 0 && !false) = true)]
  simp only [processFieldsWith, processFieldWith, bind, Except.bind]
  rw [if_neg hf1]
  simp only [hr1, hR, ne_eq, not_false_eq_true, if_true, reduceIte, hlook,
    exbind_ok]
  rw [if_neg hf2]
  simp only [hr2, hR, ne_eq, not_false_eq_true, if_true, reduceIte, hlook,
    exbind_ok]
  rfl

/-- C5: internal references are aliases, not copies.  First conjunct:
resolving a node whose internal reference points to an already-present
TypePath returns that path immediately, leaving the state unchanged (no new
descriptor).  Second conjunct: a parent object whose two properties both
reference the same resolved path `R` registers exactly one new descriptor
(the parent's own), and both resulting fields point at the same existing
descriptor via `TypeRef = R`. -/
theorem C5_references_are_aliases :
    (∀ (fuel : Nat) (cfg : Config) (st0 : genState) (s : metaSchema)
      (pName pDesc path parentPath : String),
      s.Definitions = [] → s.Ref ≠ "" →
      (lookupA st0.types s.Ref).isSome = true →
      processType (fuel + 1) cfg st0 s pName pDesc path parentPath =
        .ok (st0, s.Ref)) ∧
    (∀ (fuel : Nat) (cfg : Config) (st0 : genState) (s ps1 ps2 : metaSchema)
      (pName pDesc path parentPath n1 n2 R : String) (refT : goType),
      s.Definitions = [] → s.Ref = "" →
      s.Properties = [(n1, ps1), (n2, ps2)] → s.TypeOf = .str "object" →
      s.Format ≠ "date-time" → s.AdditionalProperties = .noAddl →
      ps1.Ref = R → ps2.Ref = R → R ≠ "" →
      lookupA st0.types R = some refT →
      ¬(path ≠ "#" ∧ typeNameFor cfg s pName path = "") →
      typeNameFor cfg s pName path ≠ "Properties" →
      generateFieldName (if ps1.Title ≠ "" then ps1.Title else n1) ≠ "" →
      generateFieldName (if ps2.Title ≠ "" then ps2.Title else n2) ≠ "" →
      processType (fuel + 1) cfg st0 s pName pDesc path parentPath =
        .ok (registerType st0 path
          { Name := typeNameFor cfg s pName path, TypeRef := "",
            TypePref := "struct", Nullable := decide (path = "#"),
            Fields :=
              [{ Name := generateFieldName (if ps1.Title ≠ "" then ps1.Title else n1),
                 TypeRef := R, TypePref := "", Nullable := refT.Nullable,
                 PropertyName := n1, Required := s.Required.contains n1 },
               { Name := generateFieldName (if ps2.Title ≠ "" then ps2.Title else n2),
                 TypeRef := R, TypePref := "", Nullable := refT.Nullable,
                 PropertyName := n2, Required := s.Required.contains n2 }],
            Comment := if s.Description ≠ "" then s.Description else pDesc,
            parentPath := parentPath,
            origTypeName := origNameFor cfg s pName path }, path)) :=
  ⟨fun fuel cfg st0 s pName pDesc path parentPath h1 h2 h3 =>
      processType_ref_is_alias fuel cfg st0 s pName pDesc path parentPath h1 h2 h3,
   fun fuel cfg st0 s ps1 ps2 pName pDesc path parentPath n1 n2 R refT
      h1 h2 h3 h4 h5 h6 h7 h8 h9 h10 h11 h12 h13 h14 =>
      processType_two_refs_share fuel cfg st0 s ps1 ps2 pName pDesc path
        parentPath n1 n2 R refT h1 h2 h3 h4 h5 h6 h7 h8 h9 h10 h11 h12 h13 h14⟩

/-- The parent schema of the C5 witness: an object titled "t" with two
properties that are both references to the root. -/
def c5parent : metaSchema :=
  .mk "t" "" (.str "object") []
    [("p1", refSchema "#"), ("p2", refSchema "#")] .noItems "" [] .noAddl ""

/-- Witness for C5: the alias conjunct on a reference to the resolved root,
and the sharing conjunct on a parent with two root-referencing properties. -/
theorem C5_references_are_aliases_witness :
    processType 1 mainCfg c10state (refSchema "#") "n" "" "#/properties/x"
      "#" = .ok (c10state, "#") ∧
    processType 1 mainCfg c10state c5parent "par" "" "#/definitions/par" "#" =
      .ok (registerType c10state "#/definitions/par"
        { Name := "t", TypeRef := "", TypePref := "struct", Nullable := false,
          Fields :=
            [{ Name := "P1", TypeRef := "#", TypePref := "", Nullable := true,
               PropertyName := "p1", Required := false },
             { Name := "P2", TypeRef := "#", TypePref := "", Nullable := true,
               PropertyName := "p2", Required := false }],
          Comment := "", parentPath := "#", origTypeName := "t" },
        "#/definitions/par") := by
  constructor
  · exact C5_references_are_aliases.1 0 mainCfg c10state (refSchema "#")
      "n" "" "#/properties/x" "#" rfl (by decide) rfl
  · rw [C5_references_are_aliases.2 0 mainCfg c10state c5parent
      (refSchema "#") (refSchema "#") "par" "" "#/definitions/par" "#"
      "p1" "p2" "#" { Name := "root", Nullable := true }
      rfl rfl rfl rfl (by decide) rfl rfl rfl (by decide) rfl (by decide)
      (by decide) (by decide) (by decide)]
    rfl

/-- Helper for C4: the type-level nullable-union unwrap is order-
insensitive for every category. -/
theorem typeNullable_union_comm (a : String) :
    typeNullable (.arr [a, "null"]) = (true, a) ∧
    typeNullable (.arr ["null", a]) = (true, a) := by
  constructor
  · by_cases h : a = "null" <;> simp [typeNullable, h]
  · by_cases h : a = "null" <;> simp [typeNullable, h]

/-- Helper for C4: for a property whose category maps to a non-structural
type string, the entire field result is identical for the two orders of the
null union, with `Nullable = true` and the category's type string. -/
theorem processFieldWith_union_comm (recurse : RecFun) (st : genState)
    (s : metaSchema) (pName pDesc path parentPath : String)
    (req : List String) (propName : String)
    (T d : String) (r : List String) (props : List (String × metaSchema))
    (items : itemsSpec) (fmt : String) (defs : List (String × metaSchema))
    (addl : addlSpec) (a : String)
    (hfn : generateFieldName (if T ≠ "" then T else propName) ≠ "")
    (hobj : getTypeString a fmt ≠ "object")
    (harr : getTypeString a fmt ≠ "array") :
    processFieldWith recurse st s pName pDesc path parentPath req propName
        (.mk T d (.arr [a, "null"]) r props items fmt defs addl "") =
      processFieldWith recurse st s pName pDesc path parentPath req propName
        (.mk T d (.arr ["null", a]) r props items fmt defs addl "") ∧
    processFieldWith recurse st s pName pDesc path parentPath req propName
        (.mk T d (.arr [a, "null"]) r props items fmt defs addl "") =
      .ok (.fieldDone (getTypeStringSt st a fmt).1
        { Name := generateFieldName (if T ≠ "" then T else propName),
          TypeRef := "", TypePref := getTypeString a fmt, Nullable := true,
          PropertyName := propName, Required := req.contains propName }) := by
  simp only [ne_eq, ite_not] at hfn
  refine ⟨?_, ?_⟩ <;>
  · simp only [processFieldWith, bind, Except.bind, metaSchema.Title,
      metaSchema.Ref, metaSchema.TypeOf, metaSchema.Format,
      metaSchema.Properties, metaSchema.Items, metaSchema.Description,
      metaSchema.AdditionalProperties, ne_eq, reduceIte,
      not_true_eq_false, if_false, fieldTypeSwitch, getTypeStringSt]
    by_cases h : a = "null"
    · subst h; simp [hobj, harr, hfn]
    · simp [h, hobj, harr, hfn]

/-- C4: nullable-union unwrapping is order-insensitive.  First conjunct:
the type-level unwrap (`typeNullable`, lines 445-458) yields the same
(nullable, category) pair for `[a, "null"]` and `["null", a]`, for every
category `a`.  Second conjunct: at the field level (lines 543-554), for
every property whose category maps to a non-structural type string, the two
orders produce the *same* field, whose type is the category's type string
and whose Nullable flag is true. -/
theorem C4_nullable_union_order_insensitive :
    (∀ a : String,
      typeNullable (.arr [a, "null"]) = (true, a) ∧
      typeNullable (.arr ["null", a]) = (true, a)) ∧
    (∀ (recurse : RecFun) (st : genState) (s : metaSchema)
      (pName pDesc path parentPath : String) (req : List String)
      (propName T d : String) (r : List String)
      (props : List (String × metaSchema)) (items : itemsSpec) (fmt : String)
      (defs : List (String × metaSchema)) (addl : addlSpec) (a : String),
      generateFieldName (if T ≠ "" then T else propName) ≠ "" →
      getTypeString a fmt ≠ "object" → getTypeString a fmt ≠ "array" →
      processFieldWith recurse st s pName pDesc path parentPath req propName
          (.mk T d (.arr [a, "null"]) r props items fmt defs addl "") =
        processFieldWith recurse st s pName pDesc path parentPath req propName
          (.mk T d (.arr ["null", a]) r props items fmt defs addl "") ∧
      processFieldWith recurse st s pName pDesc path parentPath req propName
          (.mk T d (.arr [a, "null"]) r props items fmt defs addl "") =
        .ok (.fieldDone (getTypeStringSt st a fmt).1
          { Name := generateFieldName (if T ≠ "" then T else propName),
            TypeRef := "", TypePref := getTypeString a fmt, Nullable := true,
            PropertyName := propName, Required := req.contains propName })) :=
  ⟨typeNullable_union_comm,
   fun recurse st s pName pDesc path parentPath req propName T d r props
      items fmt defs addl a h1 h2 h3 =>
    processFieldWith_union_comm recurse st s pName pDesc path parentPath req
      propName T d r props items fmt defs addl a h1 h2 h3⟩

/-- Witness for C4: `["string","null"]` and `["null","string"]` on a
concrete property give the same nullable string field. -/
theorem C4_nullable_union_order_insensitive_witness :
    (typeNullable (.arr ["string", "null"]) = (true, "string") ∧
     typeNullable (.arr ["null", "string"]) = (true, "string")) ∧
    (processFieldWith noRecurse genState.init emptySchema "r" "" "#" "" []
        "n" (.mk "" "" (.arr ["string", "null"]) [] [] .noItems "" [] .noAddl "") =
      processFieldWith noRecurse genState.init emptySchema "r" "" "#" "" []
        "n" (.mk "" "" (.arr ["null", "string"]) [] [] .noItems "" [] .noAddl "") ∧
     processFieldWith noRecurse genState.init emptySchema "r" "" "#" "" []
        "n" (.mk "" "" (.arr ["string", "null"]) [] [] .noItems "" [] .noAddl "") =
      .ok (.fieldDone (getTypeStringSt genState.init "string" "").1
        { Name := generateFieldName (if ("" : String) ≠ "" then "" else "n"),
          TypeRef := "", TypePref := getTypeString "string" "",
          Nullable := true, PropertyName := "n",
          Required := [].contains "n" })) :=
  ⟨C4_nullable_union_order_insensitive.1 "string",
   C4_nullable_union_order_insensitive.2 noRecurse genState.init emptySchema
    "r" "" "#" "" [] "n" "" "" [] [] .noItems "" [] .noAddl "string"
    (by decide) (by decide) (by decide)⟩

/-- The schema of the C1 counterexample: an object with a non-empty
properties map *and* an additional-properties schema. -/
def c1schema : metaSchema :=
  .mk "" "" (.str "object") [] [("a", strSchema)] .noItems "" []
    (.schema strSchema) ""

/-- Counterexample for C1: resolving a root object that declares both a
non-empty properties map and an additional-properties schema does NOT raise
a fatal error — the run succeeds and registers a descriptor with the
guessed untyped-map fallback `map[string]interface\x7b\x7d`. -/
theorem C1_no_fatal_error_counterexample :
    isOkE ((processType 3 mainCfg genState.init c1schema "r" "" "#" "").map
      Prod.fst) = true ∧
    (match processType 3 mainCfg genState.init c1schema "r" "" "#" "" with
      | .ok (st, _) => (lookupA st.types "#").map goType.TypePref
      | .error _ => none) = some "map[string]interface\x7b\x7d" := by
  constructor
  · rfl
  · rfl

/-- C1 (amended): for every object-category node declaring both a non-empty
properties map and an additional-properties schema, the structural dispatch
raises no error of its own (only the unrelated "Properties" debugging panic
would, which the name hypothesis excludes): any successful resolution
registers a descriptor classified as an associative map of untyped values
(`map[string]interface\x7b\x7d`). -/
theorem C1_props_and_additional_fallback (fuel : Nat) (cfg : Config)
    (st0 : genState) (s : metaSchema) (pName pDesc path parentPath : String)
    (st' : genState) (r : String) (addls : metaSchema)
    (hdefs : s.Definitions = [])
    (href : s.Ref = "")
    (hty : getTypeString (typeNullable s.TypeOf).2 s.Format = "object")
    (hprops : s.Properties.length ≠ 0)
    (haddl : s.AdditionalProperties = .schema addls)
    (hnp : typeNameFor cfg s pName path ≠ "Properties")
    (heq : processType (fuel + 1) cfg st0 s pName pDesc path parentPath =
      .ok (st', r)) :
    ∃ gt, lookupA st'.types path = some gt ∧
      gt.TypePref = "map[string]interface\x7b\x7d" := by
  simp only [processType, bind, Except.bind, hdefs, List.length_nil,
    gt_iff_lt, lt_self_iff_false, if_false, href, ne_eq, reduceIte,
    not_true_eq_false, getTypeStringSt_snd] at heq
  rw [hty] at heq
  simp only [dispatchKind, reduceIte, haddl, parseAdditionalProperties,
    apply_ite goType.Name, ite_self] at heq
  rw [if_neg hnp] at heq
  have hb : (s.Properties.length != 0) = true := by simpa using hprops
  simp only [hb, Bool.not_true, Bool.and_false, Bool.true_and,
    Bool.false_and, Option.isSome_some, Bool.and_true, Bool.false_eq_true,
    if_false, reduceIte] at heq
  split at heq
  case isTrue => exact absurd heq (by simp)
  case isFalse =>
    split at heq
    case h_1 => exact absurd heq (by simp)
    case h_2 fo hfields =>
      split at heq
      case h_1 stZ gtZ =>
        simp only [Except.ok.injEq, Prod.mk.injEq] at heq
        obtain ⟨hst, -⟩ := heq
        subst hst
        refine ⟨gtZ, registerType_lookup _ _ _, ?_⟩
        rw [fieldsTail_pref hfields (Or.inl rfl)]
      case h_2 stZ gtZ =>
        simp only [Except.ok.injEq, Prod.mk.injEq] at heq
        obtain ⟨hst, -⟩ := heq
        subst hst
        refine ⟨gtZ, registerType_lookup _ _ _, ?_⟩
        rw [fieldsTail_pref hfields (Or.inr rfl)]

/-- Witness for C1: the amended fallback behavior on the concrete schema of
the counterexample. -/
theorem C1_props_and_additional_fallback_witness :
    ∃ gt, lookupA (stateOf (processType 3 mainCfg genState.init c1schema
      "r" "" "#" "")).types "#" = some gt ∧
      gt.TypePref = "map[string]interface\x7b\x7d" :=
  C1_props_and_additional_fallback 2 mainCfg genState.init c1schema "r" ""
    "#" "" (stateOf (processType 3 mainCfg genState.init c1schema "r" "" "#" ""))
    "#" strSchema rfl rfl rfl (by decide) rfl (by decide) rfl

/-- The schema of the C2 theorem: a root object with one property whose
type specifier is a two-element union without the null marker and one whose
specifier has three categories. -/
def c2schema : metaSchema :=
  .mk "" "" (.str "object") []
    [("u", .mk "" "" (.arr ["string", "integer"]) [] [] .noItems "" [] .noAddl ""),
     ("v", .mk "" "" (.arr ["string", "integer", "boolean"]) [] [] .noItems "" [] .noAddl "")]
    .noItems "" [] .noAddl ""

/-- C2: contrary to the claim (and to the repository's own README, which
documents `["string", "integer"]` as producing `interface\x7b\x7d`), a
property whose type specifier is a union without the null marker — or with
more than two categories — gets an *empty* type prefix, not the
untyped-value type: the per-field type switch only assigns a type for a
two-element array containing "null", a single string, or an absent
specifier, and otherwise leaves the Go zero value `""`. -/
theorem C2_union_field_empty_type :
    fieldsAt (processType 3 mainCfg genState.init c2schema "r" "" "#" "") "#" =
      some [("U", ""), ("V", "")] ∧
    ("" : String) ≠ "interface\x7b\x7d" := by
  constructor
  · rfl
  · decide

/-- C7 (amended): the behavior of one dedupe step on a colliding path.
Arm 1: if the parent's name is itself still pending in the registry, the
path is postponed (re-queued under its current name, the table untouched).
Arm 2: if the parent is stable but has no original name, the step fails
fatally with `cantDisambiguate`.  Arm 3: otherwise the path's descriptor is
renamed by prefixing its original name with the parent's original name
(joined by "-", regenerated through `generateTypeName`) and re-registered
under the new name. -/
theorem C7_dedupe_step_behavior (cfg : Config) (st : genState)
    (dupes : List String) (dupePath : String) (gt parent : goType)
    (hgt : lookupA st.types dupePath = some gt)
    (hpar : lookupA st.types gt.parentPath = some parent) :
    ((lookupA st.typesByName parent.Name).isSome = true →
      dedupeStep cfg st dupes dupePath =
        .ok { st with typesByName := addToByName st.typesByName gt.Name dupePath }) ∧
    (lookupA st.typesByName parent.Name = none → parent.origTypeName = "" →
      dedupeStep cfg st dupes dupePath = .error (.cantDisambiguate dupes)) ∧
    (lookupA st.typesByName parent.Name = none → parent.origTypeName ≠ "" →
      dedupeStep cfg st dupes dupePath =
        .ok { st with
          types := insertA st.types dupePath
            { gt with
              origTypeName := parent.origTypeName ++ "-" ++ gt.origTypeName,
              Name := generateTypeName cfg
                (parent.origTypeName ++ "-" ++ gt.origTypeName) },
          typesByName := addToByName st.typesByName
            (generateTypeName cfg (parent.origTypeName ++ "-" ++ gt.origTypeName))
            dupePath }) := by
  refine ⟨?_, ?_, ?_⟩
  · intro h1
    simp [dedupeStep, hgt, hpar, h1]
  · intro h1 h2
    simp [dedupeStep, hgt, hpar, h1, h2]
  · intro h1 h2
    simp [dedupeStep, hgt, hpar, h1, h2]

/-- A colliding descriptor for the C7 witness. -/
def gt7 : goType := { Name := "x", origTypeName := "x", parentPath := "q" }

/-- Its parent, with a usable original name. -/
def par7 : goType := { Name := "par", origTypeName := "par" }

/-- A parent with no original name (the fatal case). -/
def par0 : goType := { Name := "par", origTypeName := "" }

/-- State for the postpone arm: the parent's name is still in the registry. -/
def st7a : genState :=
  { types := [("p", gt7), ("q", par7)],
    typesByName := [("par", ["q", "q2"]), ("x", ["p"])] }

/-- State for the fatal arm: stable parent with empty original name. -/
def st7b : genState := { types := [("p", gt7), ("q", par0)] }

/-- State for the rename arm: stable parent with an original name. -/
def st7c : genState := { types := [("p", gt7), ("q", par7)] }

/-- Witness for C7: all three arms of the dedupe step at concrete states. -/
theorem C7_dedupe_step_behavior_witness :
    dedupeStep mainCfg st7a ["p"] "p" =
      .ok { st7a with typesByName := addToByName st7a.typesByName gt7.Name "p" } ∧
    dedupeStep mainCfg st7b ["p"] "p" = .error (.cantDisambiguate ["p"]) ∧
    dedupeStep mainCfg st7c ["p"] "p" =
      .ok { st7c with
        types := insertA st7c.types "p"
          { gt7 with
            origTypeName := par7.origTypeName ++ "-" ++ gt7.origTypeName,
            Name := generateTypeName mainCfg
              (par7.origTypeName ++ "-" ++ gt7.origTypeName) },
        typesByName := addToByName st7c.typesByName
          (generateTypeName mainCfg (par7.origTypeName ++ "-" ++ gt7.origTypeName))
          "p" } :=
  ⟨(C7_dedupe_step_behavior mainCfg st7a ["p"] "p" gt7 par7 rfl rfl).1 rfl,
   (C7_dedupe_step_behavior mainCfg st7b ["p"] "p" gt7 par0 rfl rfl).2.1 rfl rfl,
   (C7_dedupe_step_behavior mainCfg st7c ["p"] "p" gt7 par7 rfl rfl).2.2 rfl
     (by decide)⟩

/-- The schema of the C7 counterexample: `foo.bar` and `qux.bar` collide on
the name "bar"; the disambiguating rename of the first lands on "fooBar",
the name already produced — and cleared as unique — for the property
"foo-bar". -/
def c7doc : metaSchema := objWith
  [("foo", objWith [("bar", objWith [("b", strSchema)])]),
   ("qux", objWith [("bar", objWith [("b", strSchema)])]),
   ("foo-bar", objWith [("b", strSchema)])]

/-- Counterexample for C7: the full pipeline (including `dedupeTypes`)
completes successfully, yet the final descriptor table contains two
distinct paths whose generated names are both "fooBar" — the final table's
names are not injective. -/
theorem C7_final_names_not_injective :
    isOkE (mainResolve mainCfg c7doc 20) = true ∧
    namesAt (mainResolve mainCfg c7doc 20)
      "#/properties/foo/properties/bar" = some "fooBar" ∧
    namesAt (mainResolve mainCfg c7doc 20)
      "#/properties/foo-bar" = some "fooBar" ∧
    ("#/properties/foo/properties/bar" : String) ≠ "#/properties/foo-bar" := by
  refine ⟨rfl, rfl, rfl, by decide⟩

/-- One iteration order of the C8 document: a root object with properties
"a-b" and "aB", both plain strings.  Both property names generate the same
field name "AB". -/
def c8docA : metaSchema := objWith [("a-b", strSchema), ("aB", strSchema)]

/-- The same document under the other map iteration order. -/
def c8docB : metaSchema := objWith [("aB", strSchema), ("a-b", strSchema)]

/-- C8: resolution is NOT deterministic across runs.  The two property
lists are permutations of one another — the same parsed document seen
under two Go map iteration orders — yet the two runs complete successfully
and emit the root struct's fields in different orders: both properties
generate the field name "AB", and the stable emission sort keeps the
iteration order among equal names, so the serialized property names appear
in run-dependent order and the output is not byte-identical. -/
theorem C8_iteration_order_changes_output :
    c8docA.Properties.Perm c8docB.Properties ∧
    isOkE (mainResolve mainCfg c8docA 20) = true ∧
    isOkE (mainResolve mainCfg c8docB 20) = true ∧
    rootFieldsEmitted (mainResolve mainCfg c8docA 20) =
      [("AB", "a-b"), ("AB", "aB")] ∧
    rootFieldsEmitted (mainResolve mainCfg c8docB 20) =
      [("AB", "aB"), ("AB", "a-b")] ∧
    rootFieldsEmitted (mainResolve mainCfg c8docA 20) ≠
      rootFieldsEmitted (mainResolve mainCfg c8docB 20) := by
  refine ⟨List.Perm.swap _ _ _, rfl, rfl, by decide, by decide, by decide⟩
